import Mathlib

/-!
# run-local.js — a verification development

A shallow embedding of `src/run-local.js`, the command-line driver that picks a
network profile, checks the RPC credential, prepares the output directory and
runs the PoolTogether V5 CLI inside a bounded retry loop.

The script is embedded as a function of everything it reads from outside:
its arguments, `process.env` (as it stands after `dotenv.config()` on line 8),
the filesystem and what the operating system refuses to create in it, the
directory of the script, and the results of the subprocesses it starts.  What
it does to the outside (console output, `mkdirSync`, `execSync`, the exit
code) is returned as a trace.
-/

namespace RunLocal

/-! ## Network table (lines 10-42) -/

/-- One entry of the `networks` object literal.  `multicallAddress` is a key
that only some entries have, so reading it may give `undefined` (`none`). -/
structure NetworkProfile where
  chainId : Nat
  prizePoolAddress : String
  contractJsonUrl : String
  subgraphUrl : String
  multicallAddress : Option String
  rpcEnvVar : String
  deriving DecidableEq, Repr

def optimismMainnet : NetworkProfile where
  chainId := 10
  prizePoolAddress := "0xf35fe10ffd0a9672d0095c435fd8767a7fe29b55"
  contractJsonUrl := "https://raw.githubusercontent.com/GenerationSoftware/pt-v5-mainnet/396f04daedc5a38935460ddf47d2f10e9ac1fec6/deployments/optimism/contracts.json"
  subgraphUrl := "https://api.studio.thegraph.com/query/63100/pt-v5-optimism/version/latest/graphql"
  multicallAddress := none
  rpcEnvVar := "OPTIMISM_MAINNET_RPC_URL"

def baseMainnet : NetworkProfile where
  chainId := 8453
  prizePoolAddress := "0x45b2010d8A4f08b53c9fa7544C51dFd9733732cb"
  contractJsonUrl := "https://raw.githubusercontent.com/GenerationSoftware/pt-v5-mainnet/bc84c3f5e1d9703372ae7f9baf584bab42f47b27/deployments/base/contracts.json"
  subgraphUrl := "https://subgraph.satsuma-prod.com/17063947abe2/g9-software-inc--666267/pt-v5-base/version/v0.0.1/api"
  multicallAddress := none
  rpcEnvVar := "BASE_MAINNET_RPC_URL"

def gnosisMainnet : NetworkProfile where
  chainId := 100
  prizePoolAddress := "0x0c08c2999e1a14569554eddbcda9da5e1918120f"
  contractJsonUrl := "https://raw.githubusercontent.com/GenerationSoftware/pt-v5-mainnet/196aa20f4a0b3e651d0504ffeb0e1b9a08c7ccb6/deployments/gnosis/contracts.json"
  subgraphUrl := "https://api.studio.thegraph.com/query/63100/pt-v5-gnosis/version/latest/graphql"
  multicallAddress := some "0xcA11bde05977b3631167028862bE2a173976CA11"
  rpcEnvVar := "GNOSIS_MAINNET_RPC_URL"

def worldMainnet : NetworkProfile where
  chainId := 480
  prizePoolAddress := "0x99ffb0a6c0cd543861c8de84dd40e059fd867dcf"
  contractJsonUrl := "https://raw.githubusercontent.com/GenerationSoftware/pt-v5-mainnet/8e1432b70c1f135966c1b70917675cd586dda7be/deployments/world/contracts.json"
  subgraphUrl := "https://api.goldsky.com/api/public/project_cm3xb1e8iup5601yx9mt5caat/subgraphs/pt-v5-world/v0.0.1/gn"
  multicallAddress := some "0xcA11bde05977b3631167028862bE2a173976CA11"
  rpcEnvVar := "WORLD_MAINNET_RPC_URL"

/-- The `networks` object: its own keys in insertion order, which is the order
`Object.keys` enumerates them in. -/
def networks : List (String × NetworkProfile) :=
  [("optimism-mainnet", optimismMainnet),
   ("base-mainnet", baseMainnet),
   ("gnosis-mainnet", gnosisMainnet),
   ("world-mainnet", worldMainnet)]

/-! ## Constants (lines 44-47, 78, 94) -/

def CLI_VERSION : String := "2.0.8"
def OUTPUT_DIRECTORY_NAME : String := "winners/vaultAccounts"
def PRIZE_TIERS_TO_COMPUTE : String := "0,1,2,3,4,5"
def MAX_RETRIES : Nat := 50
def remoteStatusUrl : String :=
  "https://raw.githubusercontent.com/GenerationSoftware/pt-v5-winners/refs/heads/main/winners/vaultAccounts"

/-! ## JavaScript values the script reads -/

/-- String conversion of a possibly-undefined string, as a template literal
or a property key performs it: the value `undefined` gives the nine letters
of its name. -/
def tmpl : Option String → String
  | some s => s
  | none => "undefined"

/-- Truthiness of a possibly-undefined string: `undefined` and the empty
string are falsy, every other string is truthy. -/
def strTruthy : Option String → Bool
  | none => false
  | some s => s != ""

/-- Reading key `k` of an object given by its own entries. -/
def getEntry {α : Type} : List (String × α) → String → Option α
  | [], _ => none
  | (k', v) :: rest, k => if k' = k then some v else getEntry rest k

/-- Writing key `k` of an object: an existing entry is overwritten in place,
a new one is added at the end. -/
def setEntry {α : Type} : List (String × α) → String → α → List (String × α)
  | [], k, v => [(k, v)]
  | (k', v') :: rest, k, v =>
      if k' = k then (k, v) :: rest else (k', v') :: setEntry rest k v

/-- Property names that every object literal inherits from `Object.prototype`. -/
def objectPrototypeKeys : List String :=
  ["constructor", "__defineGetter__", "__defineSetter__", "hasOwnProperty",
   "__lookupGetter__", "__lookupSetter__", "isPrototypeOf",
   "propertyIsEnumerable", "toString", "valueOf", "__proto__", "toLocaleString"]

/-- What `networks[key]` evaluates to: an own entry, a member inherited from
`Object.prototype` (a function, or the prototype object itself for
`__proto__`), or `undefined`. -/
inductive TableValue where
  | profile (p : NetworkProfile)
  | inherited
  | undefined
  deriving DecidableEq, Repr

/-- Property read `tbl[key]` on the object literal `tbl`: own keys first, then
the prototype. -/
def getProperty (tbl : List (String × NetworkProfile)) (key : String) : TableValue :=
  match getEntry tbl key with
  | some p => .profile p
  | none => if key ∈ objectPrototypeKeys then .inherited else .undefined

namespace TableValue

/-- Objects and functions are truthy, `undefined` is falsy. -/
def truthy : TableValue → Bool
  | undefined => false
  | _ => true

/-- Read of `.rpcEnvVar`: the inherited members carry no such property. -/
def rpcEnvVar : TableValue → Option String
  | profile p => some p.rpcEnvVar
  | _ => none

def prizePoolAddress : TableValue → Option String
  | profile p => some p.prizePoolAddress
  | _ => none

/-- Read of `.chainId`, already converted to its decimal string. -/
def chainId : TableValue → Option String
  | profile p => some (toString p.chainId)
  | _ => none

def contractJsonUrl : TableValue → Option String
  | profile p => some p.contractJsonUrl
  | _ => none

def subgraphUrl : TableValue → Option String
  | profile p => some p.subgraphUrl
  | _ => none

def multicallAddress : TableValue → Option String
  | profile p => p.multicallAddress
  | _ => none

end TableValue

/-! ## The command line (lines 93-104) -/

/-- Six spaces: the indentation that follows each line continuation of the
`command` template literal. -/
def indent : String := "      "

/-- The value given to `-o` in the command. -/
def outputArg : String := "./" ++ OUTPUT_DIRECTORY_NAME

/-- The `command` template literal.  A backslash directly before the line end
is a line continuation and contributes no character, so each line of the
literal ends with the blank that precedes the backslash and the next one
starts with its indentation. -/
def command (network : TableValue) : String :=
  "ptv5 utils compileWinners " ++
  indent ++ "-o " ++ outputArg ++ " " ++
  indent ++ "-p " ++ tmpl network.prizePoolAddress ++ " " ++
  indent ++ "-c " ++ tmpl network.chainId ++ " " ++
  indent ++ "-j " ++ tmpl network.contractJsonUrl ++ " " ++
  indent ++ "-s " ++ tmpl network.subgraphUrl ++ " " ++
  indent ++ "-r " ++ remoteStatusUrl ++ " " ++
  indent ++ "-m " ++ tmpl network.multicallAddress

def probeCommand : String := "ptv5 --version"

def installCommand : String := "npm install -g @generationsoftware/pt-v5-cli@" ++ CLI_VERSION

/-- Splitting a character list at the characters satisfying `sep`, dropping
empty pieces; `cur` is the piece being read, in reverse. -/
def splitAux (sep : Char → Bool) : List Char → List Char → List (List Char)
  | [], cur => if cur.isEmpty then [] else [cur.reverse]
  | c :: cs, cur =>
      if sep c then
        (if cur.isEmpty then splitAux sep cs [] else cur.reverse :: splitAux sep cs [])
      else splitAux sep cs (c :: cur)

/-- Whitespace-separated tokens of a string, as a shell sees a command line
without quotes. -/
def words (s : String) : List String :=
  (splitAux Char.isWhitespace s.data []).map String.mk

/-! ## Child environment (lines 109-115) -/

/-- Value of an entry of the `env` option: the spread entries are strings,
`DEBUG` is the boolean `true`. -/
inductive EnvVal where
  | str (s : String)
  | bool (b : Bool)
  deriving DecidableEq, Repr

abbrev ProcessEnv := List (String × String)
abbrev ChildEnv := List (String × EnvVal)

/-- The object literal given as `env` to the compileWinners child: the spread
of `process.env`, then the four keys written in source order. -/
def childEnv (env : ProcessEnv) (rpcUrl : String) : ChildEnv :=
  let spread : ChildEnv := env.map fun kv => (kv.1, EnvVal.str kv.2)
  setEntry
    (setEntry
      (setEntry
        (setEntry spread "JSON_RPC_URL" (.str rpcUrl))
        "NODE_OPTIONS" (.str "--max_old_space_size=32768"))
      "PRIZE_TIERS_TO_COMPUTE" (.str PRIZE_TIERS_TO_COMPUTE))
    "DEBUG" (.bool true)

/-! ## Paths and the filesystem (lines 71-75) -/

abbrev Path := List String

/-- Components of a slash-separated path string; empty components vanish. -/
def segments (s : String) : List String :=
  (splitAux (fun c => c == '/') s.data []).map String.mk

/-- Walking one component from a directory. -/
def applySegment (p : Path) (seg : String) : Path :=
  if seg = "." then p else if seg = ".." then p.dropLast else p ++ [seg]

/-- Resolution of the relative path string `rel` from directory `base`.  It is
what `path.join(base, rel)` computes for an absolute `base`, and what a
process whose working directory is `base` opens for `rel`. -/
def resolveFrom (base : Path) (rel : String) : Path :=
  (segments rel).foldl applySegment base

/-- Line 72: `path.join(__dirname, OUTPUT_DIRECTORY_NAME)`. -/
def outputDir (dirname : Path) : Path := resolveFrom dirname OUTPUT_DIRECTORY_NAME

/-- A filesystem entry: a regular file or a directory with named entries. -/
inductive Node where
  | file : Node
  | dir : List (String × Node) → Node

namespace Node

/-- The entry at `p` below `n`, if the walk succeeds. -/
def find : Node → Path → Option Node
  | n, [] => some n
  | file, _ :: _ => none
  | dir es, c :: cs =>
      match getEntry es c with
      | none => none
      | some n => find n cs

def isDir : Node → Bool
  | dir _ => true
  | file => false

end Node

/-- Model of `fs.existsSync`: true exactly when something is at the path. -/
def existsSync (root : Node) (p : Path) : Bool := (root.find p).isSome

/-- Whether a directory is at the path. -/
def isDirectory (root : Node) (p : Path) : Bool :=
  match root.find p with
  | some n => n.isDir
  | none => false

/-- Whether a regular file is at the path. -/
def isFile (root : Node) (p : Path) : Bool :=
  match root.find p with
  | some n => !n.isDir
  | none => false

/-- What the operating system answers when a directory has to be created at
a path: `none` when it creates it, `some code` when it refuses, with the
error code of the refusal (`EACCES`, `EROFS`, `ENOSPC`, ...). -/
abbrev Faults := Path → Option String

/-- An operating system that refuses nothing. -/
def noFaults : Faults := fun _ => none

/-- Model of `fs.mkdirSync` with the `recursive` option set, walking the
remaining components from the entry reached at `walked`: existing directories
are kept, a missing directory is created unless the operating system refuses,
and the call throws on a refusal and on a regular file in the way. -/
def mkdirSync (faults : Faults) : Path → Node → Path → Except String Node
  | _, .file, [] => .error "EEXIST"
  | _, .file, _ :: _ => .error "ENOTDIR"
  | _, .dir es, [] => .ok (.dir es)
  | walked, .dir es, c :: cs =>
      match getEntry es c with
      | some n =>
          match mkdirSync faults (walked ++ [c]) n cs with
          | .ok n' => .ok (.dir (setEntry es c n'))
          | .error e => .error e
      | none =>
          match faults (walked ++ [c]) with
          | some code => .error code
          | none =>
              match mkdirSync faults (walked ++ [c]) (.dir []) cs with
              | .ok n' => .ok (.dir (setEntry es c n'))
              | .error e => .error e

/-- Lines 73-75: create the directory unless something exists at the path. -/
def prepareOutputDir (faults : Faults) (root : Node) (p : Path) : Except String Node :=
  if !existsSync root p then mkdirSync faults [] root p else .ok root

/-! ## Console output, subprocesses and the trace -/

/-- One console line, by the call that prints it. -/
inductive Msg where
  | availableNetworks
  | networkItem (net : String)
  | usage
  | usageExample
  | rpcNotSet (rpcEnvVar : String)
  | rpcSetHint (rpcEnvVar : String)
  | attemptStart (attempt : Nat) (networkArg : String)
  | installing
  | executing (command : String)
  | succeeded (networkArg : String)
  | resultsSaved (chainId : String)
  | attemptFailed (attempt : Nat) (message : String)
  | exceeded
  | retrying
  deriving DecidableEq, Repr

/-- The text each call prints (lines 54-57, 66-67, 83, 89, 106, 118-119,
122, 124, 127). -/
def Msg.text : Msg → String
  | .availableNetworks => "Available networks:"
  | .networkItem net => "  - " ++ net
  | .usage => "\nUsage: node run-local.js <network-name>"
  | .usageExample => "Example: node run-local.js ethereum-mainnet"
  | .rpcNotSet v => "Error: " ++ v ++ " environment variable is not set."
  | .rpcSetHint v => "Please set it using: export " ++ v ++ "=<your-rpc-url>"
  | .attemptStart attempt networkArg =>
      "Attempt " ++ toString attempt ++ "/" ++ toString MAX_RETRIES ++
        ": Running PoolTogether V5 CLI for " ++ networkArg ++ "..."
  | .installing => "Installing PoolTogether V5 CLI version " ++ CLI_VERSION ++ "..."
  | .executing command => "Executing command: " ++ command
  | .succeeded networkArg => "\nSuccessfully computed winners for " ++ networkArg ++ "!"
  | .resultsSaved chainId =>
      "Results saved to ./" ++ OUTPUT_DIRECTORY_NAME ++ "/" ++ chainId ++ "/"
  | .attemptFailed attempt message =>
      "Attempt " ++ toString attempt ++ " failed:" ++ " " ++ message
  | .exceeded => "Exceeded maximum retries (" ++ toString MAX_RETRIES ++ "). Exiting."
  | .retrying => "Retrying..."

/-- What the script does to the outside, in order: `console.log`,
`console.error`, `fs.mkdirSync` and `execSync` (with its `env` option, when
one is given). -/
inductive Event where
  | log (m : Msg)
  | error (m : Msg)
  | mkdirSync (path : Path)
  | execSync (command : String) (env : Option ChildEnv)
  deriving DecidableEq, Repr

/-- How an `execSync` call ends: it returns (the child exited with code 0) or
throws an error carrying a message (spawn failure or non-zero exit). -/
inductive ExecResult where
  | ok
  | threw (message : String)
  deriving DecidableEq, Repr

/-- What the three subprocesses of one attempt do if they are started. -/
structure AttemptWorld where
  probe : ExecResult
  install : ExecResult
  compile : ExecResult
  deriving DecidableEq, Repr

/-- The behaviour of the subprocesses, by attempt number. -/
abbrev World := Nat → AttemptWorld

/-- How the process ends: the script runs to its end, `process.exit(code)` is
called, or an exception reaches the top level. -/
inductive Termination where
  | endOfScript
  | exit (code : Nat)
  | uncaught (message : String)
  deriving DecidableEq, Repr

/-- Exit code of the process: 0 at the end of the script, the argument of
`process.exit`, 1 for an uncaught exception. -/
def Termination.exitCode : Termination → Nat
  | .endOfScript => 0
  | .exit code => code
  | .uncaught _ => 1

/-- The objects of the process that the script could write to. -/
structure Store where
  networks : List (String × NetworkProfile)
  env : ProcessEnv
  deriving DecidableEq, Repr

/-- The store the script starts with: the table of lines 11-42 and the
environment of the process. -/
def initialStore (env : ProcessEnv) : Store := ⟨networks, env⟩

/-- A finished run: how the process ended, the value of the counter `attempt`
(0 when the loop was never reached), everything the script did in order, and
the process objects at the end. -/
structure Outcome where
  termination : Termination
  attempt : Nat
  trace : List Event
  store : Store
  deriving DecidableEq, Repr

/-! ## The script -/

/-- The `try` block of one attempt (lines 85-120): its events, and whether it
completed or threw into the `catch` of line 121. -/
def tryBlock (w : AttemptWorld) (network : TableValue) (networkArg rpcUrl : String)
    (env : ProcessEnv) : List Event × ExecResult :=
  let checked : List Event × ExecResult :=
    match w.probe with
    | .ok => ([.execSync probeCommand none], .ok)
    | .threw _ =>
        ([.execSync probeCommand none, .log .installing, .execSync installCommand none],
          w.install)
  match checked.2 with
  | .threw message => (checked.1, .threw message)
  | .ok =>
      let invoked := checked.1 ++
        [.log (.executing (command network)),
         .execSync (command network) (some (childEnv env rpcUrl))]
      match w.compile with
      | .threw message => (invoked, .threw message)
      | .ok =>
          (invoked ++ [.log (.succeeded networkArg),
                       .log (.resultsSaved (tmpl network.chainId))], .ok)

/-- The `while` loop of lines 81-129, from counter value `attempt` with the
trace so far; `fuel` bounds the number of iterations. -/
def retryLoop (w : World) (network : TableValue) (networkArg rpcUrl : String) (σ : Store) :
    Nat → Nat → List Event → Option Outcome
  | 0, _, _ => none
  | fuel + 1, attempt, trace =>
      if attempt < MAX_RETRIES then
        let attempt := attempt + 1
        let trace := trace ++ [.log (.attemptStart attempt networkArg)]
        match tryBlock (w attempt) network networkArg rpcUrl σ.env with
        | (events, .ok) => some ⟨.endOfScript, attempt, trace ++ events, σ⟩
        | (events, .threw message) =>
            let trace := trace ++ events ++ [.error (.attemptFailed attempt message)]
            if attempt ≥ MAX_RETRIES then
              some ⟨.exit 1, attempt, trace ++ [.error .exceeded], σ⟩
            else
              retryLoop w network networkArg rpcUrl σ fuel attempt (trace ++ [.log .retrying])
      else some ⟨.endOfScript, attempt, trace, σ⟩

/-- Lines 54-58: the list of networks, the usage text, `process.exit(1)`. -/
def usageOutcome (σ : Store) : Outcome :=
  ⟨.exit 1, 0,
   [.log .availableNetworks] ++ (σ.networks.map fun kv => Event.log (.networkItem kv.1)) ++
     [.log .usage, .log .usageExample], σ⟩

/-- The filesystem call of lines 73-75: `mkdirSync` is called exactly when
`existsSync` is false. -/
def prepareEvents (root : Node) (p : Path) : List Event :=
  if !existsSync root p then [.mkdirSync p] else []

/-- Lines 61-129, reached with a truthy `networkArg` whose lookup is truthy.
Past the check of line 65 `rpcUrl` is a non-empty string, which is what the
loop receives. -/
def runNetwork (w : World) (dirname : Path) (fs : Node) (faults : Faults)
    (networkArg : String) (σ : Store) :
    Option Outcome :=
  let network := getProperty σ.networks networkArg
  let rpcUrl := getEntry σ.env (tmpl network.rpcEnvVar)
  if !strTruthy rpcUrl then
    some ⟨.exit 1, 0,
      [.error (.rpcNotSet (tmpl network.rpcEnvVar)),
       .error (.rpcSetHint (tmpl network.rpcEnvVar))], σ⟩
  else
    match prepareOutputDir faults fs (outputDir dirname) with
    | .error message =>
        some ⟨.uncaught message, 0, prepareEvents fs (outputDir dirname), σ⟩
    | .ok _ =>
        retryLoop w network networkArg (tmpl rpcUrl) σ (MAX_RETRIES + 1) 0
          (prepareEvents fs (outputDir dirname))

/-- The whole script from line 50 on: `args` is `process.argv.slice(2)`,
`dirname` the directory of the script, `fs` the filesystem, `faults` what the
operating system refuses, `σ` the process objects at that point, `w` the
behaviour of the subprocesses. -/
def driver (w : World) (dirname : Path) (fs : Node) (faults : Faults)
    (args : List String) (σ : Store) :
    Option Outcome :=
  match args.head? with
  | none => some (usageOutcome σ)
  | some networkArg =>
      if !strTruthy (some networkArg) || !(getProperty σ.networks networkArg).truthy then
        some (usageOutcome σ)
      else runNetwork w dirname fs faults networkArg σ

/-! ## Vocabulary of the statements -/

/-- An attempt fails: the version probe and the install both throw, or the
compileWinners invocation throws. -/
def AttemptWorld.fails (a : AttemptWorld) : Prop :=
  (a.probe ≠ .ok ∧ a.install ≠ .ok) ∨ a.compile ≠ .ok

/-- An attempt succeeds: the tool is present or gets installed, and the
compileWinners invocation returns. -/
def AttemptWorld.succeeds (a : AttemptWorld) : Prop :=
  (a.probe = .ok ∨ a.install = .ok) ∧ a.compile = .ok

/-- The attempt number announced by an event, if it announces one. -/
def Event.attemptStarted : Event → Option Nat
  | .log (.attemptStart attempt _) => some attempt
  | _ => none

/-- Whether the event starts a subprocess. -/
def Event.isExec : Event → Bool
  | .execSync _ _ => true
  | _ => false

/-- Every subprocess the loop starts is one of three: the version probe and
the install with no `env` option, the compileWinners command with the
overlaid environment. -/
def Event.execShape (network : TableValue) (env : ProcessEnv) (rpcUrl : String) :
    Event → Prop
  | .execSync c e =>
      (c = probeCommand ∧ e = none) ∨ (c = installCommand ∧ e = none) ∨
        (c = command network ∧ e = some (childEnv env rpcUrl))
  | _ => True

/-- A filesystem in which a regular file sits at the output path of a script
located in `/repo`. -/
def fileAtOutputPath : Node :=
  .dir [("repo", .dir [("run-local.js", .file),
    ("winners", .dir [("vaultAccounts", .file)])])]

/-- A filesystem in which `winners` below the script directory `/repo` is a
regular file. -/
def fileAtWinners : Node :=
  .dir [("repo", .dir [("run-local.js", .file), ("winners", .file)])]

/-- A filesystem holding the script in `/repo` and nothing else. -/
def freshCheckout : Node :=
  .dir [("repo", .dir [("run-local.js", .file)])]

/-- An operating system that refuses every creation: the disk is mounted
read-only. -/
def readOnlyDisk : Faults := fun _ => some "EROFS"

/-- The tokens of the command up to and including the value of `-r`. -/
def commonTokens (p : NetworkProfile) : List String :=
  ["ptv5", "utils", "compileWinners", "-o", "./winners/vaultAccounts",
   "-p", p.prizePoolAddress, "-c", toString p.chainId, "-j", p.contractJsonUrl,
   "-s", p.subgraphUrl, "-r",
   "https://raw.githubusercontent.com/GenerationSoftware/pt-v5-winners/refs/heads/main/winners/vaultAccounts"]

/-- Subprocesses that always succeed. -/
def quietWorld : World := fun _ => ⟨.ok, .ok, .ok⟩

end RunLocal

namespace RunLocal

/-! ## Lemmas on objects -/

theorem getEntry_setEntry_same {α : Type} (es : List (String × α)) (k : String) (v : α) :
    getEntry (setEntry es k v) k = some v := by
  induction es with
  | nil => simp [setEntry, getEntry]
  | cons e rest ih =>
      obtain ⟨k', v'⟩ := e
      by_cases h : k' = k
      · simp [setEntry, getEntry, h]
      · simp [setEntry, getEntry, h, ih]

theorem getEntry_setEntry_other {α : Type} (es : List (String × α)) (k k' : String) (v : α)
    (h : k' ≠ k) : getEntry (setEntry es k v) k' = getEntry es k' := by
  induction es with
  | nil => simp [setEntry, getEntry, h.symm]
  | cons e rest ih =>
      obtain ⟨k₀, v₀⟩ := e
      by_cases h₀ : k₀ = k
      · subst h₀
        simp [setEntry, getEntry, h.symm]
      · by_cases h₁ : k₀ = k'
        · subst h₁
          simp [setEntry, getEntry, h]
        · simp [setEntry, getEntry, h₀, h₁, ih]

theorem getEntry_map_str (env : ProcessEnv) (k : String) :
    getEntry (env.map fun kv => (kv.1, EnvVal.str kv.2)) k = (getEntry env k).map EnvVal.str := by
  induction env with
  | nil => simp [getEntry]
  | cons e rest ih =>
      obtain ⟨k₀, v₀⟩ := e
      by_cases h₀ : k₀ = k
      · simp [getEntry, h₀]
      · simp [getEntry, h₀, ih]

/-! ## Lemmas on one attempt -/

theorem tryBlock_of_fails (a : AttemptWorld) (network : TableValue)
    (networkArg rpcUrl : String) (env : ProcessEnv) (h : a.fails) :
    ∃ events message, tryBlock a network networkArg rpcUrl env = (events, .threw message) ∧
      events.filterMap Event.attemptStarted = [] ∧
      ∀ e ∈ events, e.execShape network env rpcUrl := by
  obtain ⟨probe, install, compile⟩ := a
  cases probe <;> cases install <;> cases compile <;>
    simp [AttemptWorld.fails] at h <;>
    simp [tryBlock, Event.attemptStarted, Event.execShape]

theorem tryBlock_of_succeeds (a : AttemptWorld) (network : TableValue)
    (networkArg rpcUrl : String) (env : ProcessEnv) (h : a.succeeds) :
    ∃ events, tryBlock a network networkArg rpcUrl env =
        (events ++ [.execSync (command network) (some (childEnv env rpcUrl)),
                    .log (.succeeded networkArg),
                    .log (.resultsSaved (tmpl network.chainId))], .ok) ∧
      events.filterMap Event.attemptStarted = [] := by
  obtain ⟨probe, install, compile⟩ := a
  cases probe with
  | ok =>
      refine ⟨[.execSync probeCommand none, .log (.executing (command network))], ?_, ?_⟩
      · cases compile
        · simp [tryBlock]
        · simp [AttemptWorld.succeeds] at h
      · simp [Event.attemptStarted]
  | threw m =>
      refine ⟨[.execSync probeCommand none, .log .installing, .execSync installCommand none,
        .log (.executing (command network))], ?_, ?_⟩
      · cases install <;> cases compile <;> simp [AttemptWorld.succeeds] at h
        simp [tryBlock]
      · simp [Event.attemptStarted]

theorem tryBlock_execShape (a : AttemptWorld) (network : TableValue)
    (networkArg rpcUrl : String) (env : ProcessEnv) :
    ∀ e ∈ (tryBlock a network networkArg rpcUrl env).1, e.execShape network env rpcUrl := by
  obtain ⟨probe, install, compile⟩ := a
  cases probe <;> cases install <;> cases compile <;>
    simp [tryBlock, Event.execShape]

/-! ## Lemmas on the retry loop -/

theorem retryLoop_total (w : World) (network : TableValue) (networkArg rpcUrl : String)
    (σ : Store) :
    ∀ fuel attempt trace, 0 < fuel → MAX_RETRIES < fuel + attempt →
      (∀ e ∈ trace, e.execShape network σ.env rpcUrl) →
      ∃ out, retryLoop w network networkArg rpcUrl σ fuel attempt trace = some out ∧
        out.store = σ ∧ ∀ e ∈ out.trace, e.execShape network σ.env rpcUrl := by
  intro fuel
  induction fuel with
  | zero => intro _ _ h; omega
  | succ fuel ih =>
      intro attempt trace _ hfuel htrace
      have hM : MAX_RETRIES = 50 := rfl
      rw [retryLoop]
      by_cases hlt : attempt < MAX_RETRIES
      · have hshape := tryBlock_execShape (w (attempt + 1)) network networkArg rpcUrl σ.env
        rw [if_pos hlt]
        rcases hres : tryBlock (w (attempt + 1)) network networkArg rpcUrl σ.env with
          ⟨events, result⟩
        rw [hres] at hshape
        simp only [hres]
        cases result with
        | ok =>
            refine ⟨_, rfl, rfl, ?_⟩
            intro e he
            simp only [List.mem_append, List.mem_singleton] at he
            rcases he with (he | rfl) | he
            · exact htrace e he
            · trivial
            · exact hshape e he
        | threw message =>
            have hpre : ∀ e ∈ trace ++ [Event.log (.attemptStart (attempt + 1) networkArg)] ++
                events ++ [Event.error (.attemptFailed (attempt + 1) message)],
                e.execShape network σ.env rpcUrl := by
              intro e he
              simp only [List.mem_append, List.mem_singleton] at he
              rcases he with ((he | rfl) | he) | rfl
              · exact htrace e he
              · trivial
              · exact hshape e he
              · trivial
            by_cases hge : attempt + 1 ≥ MAX_RETRIES
            · simp only [hge, if_true]
              refine ⟨_, rfl, rfl, ?_⟩
              intro e he
              rcases List.mem_append.1 he with he | he
              · exact hpre e he
              · rw [List.mem_singleton.1 he]; trivial
            · simp only [hge, if_false]
              apply ih
              · omega
              · omega
              · intro e he
                rcases List.mem_append.1 he with he | he
                · exact hpre e he
                · rw [List.mem_singleton.1 he]; trivial
      · rw [if_neg hlt]
        exact ⟨_, rfl, rfl, htrace⟩

theorem retryLoop_all_fail (w : World) (network : TableValue) (networkArg rpcUrl : String)
    (σ : Store) (hfail : ∀ i, 1 ≤ i → i ≤ MAX_RETRIES → (w i).fails) :
    ∀ n fuel attempt trace, attempt + n = MAX_RETRIES → 0 < n → n ≤ fuel →
      ∃ out message, retryLoop w network networkArg rpcUrl σ fuel attempt trace = some out ∧
        out.termination = .exit 1 ∧ out.attempt = MAX_RETRIES ∧
        out.trace.filterMap Event.attemptStarted =
          trace.filterMap Event.attemptStarted ++ List.range' (attempt + 1) n ∧
        [Event.error (.attemptFailed MAX_RETRIES message), Event.error .exceeded] <:+
          out.trace := by
  intro n
  induction n with
  | zero => intro _ _ _ _ h; omega
  | succ n ih =>
      intro fuel attempt trace hsum _ hfuel
      have hM : MAX_RETRIES = 50 := rfl
      obtain ⟨fuel, rfl⟩ : ∃ f, fuel = f + 1 := ⟨fuel - 1, by omega⟩
      obtain ⟨events, message, hres, hnone, -⟩ :=
        tryBlock_of_fails (w (attempt + 1)) network networkArg rpcUrl σ.env
          (hfail (attempt + 1) (by omega) (by omega))
      rw [retryLoop, if_pos (by omega)]
      simp only [hres]
      by_cases hge : attempt + 1 ≥ MAX_RETRIES
      · have hn : n = 0 := by omega
        subst hn
        simp only [hge, if_true]
        refine ⟨_, message, rfl, rfl, by simp only []; omega, ?_, ?_⟩
        · simp [List.filterMap_append, hnone, Event.attemptStarted, List.range']
        · have hatt : attempt + 1 = MAX_RETRIES := by omega
          rw [hatt]
          exact ⟨trace ++ [Event.log (.attemptStart MAX_RETRIES networkArg)] ++ events, by simp⟩
      · simp only [hge, if_false]
        obtain ⟨out, message', hout, hterm, hatt, hfm, hsuf⟩ :=
          ih fuel (attempt + 1)
            (trace ++ [Event.log (.attemptStart (attempt + 1) networkArg)] ++ events ++
              [Event.error (.attemptFailed (attempt + 1) message)] ++ [Event.log .retrying])
            (by omega) (by omega) (by omega)
        refine ⟨out, message', hout, hterm, hatt, ?_, hsuf⟩
        rw [hfm]
        simp [List.filterMap_append, hnone, Event.attemptStarted, List.range']

theorem retryLoop_success (w : World) (network : TableValue) (networkArg rpcUrl : String)
    (σ : Store) (k : Nat) (hk : k ≤ MAX_RETRIES)
    (hfail : ∀ i, 1 ≤ i → i < k → (w i).fails) (hsucc : (w k).succeeds) :
    ∀ n fuel attempt trace, attempt + n + 1 = k → n < fuel →
      ∃ out before, retryLoop w network networkArg rpcUrl σ fuel attempt trace = some out ∧
        out.termination = .endOfScript ∧ out.attempt = k ∧
        out.trace.filterMap Event.attemptStarted =
          trace.filterMap Event.attemptStarted ++ List.range' (attempt + 1) (n + 1) ∧
        out.trace = before ++
          [Event.execSync (command network) (some (childEnv σ.env rpcUrl)),
           Event.log (.succeeded networkArg),
           Event.log (.resultsSaved (tmpl network.chainId))] := by
  intro n
  have hM : MAX_RETRIES = 50 := rfl
  induction n with
  | zero =>
      intro fuel attempt trace hsum hfuel
      obtain ⟨fuel, rfl⟩ : ∃ f, fuel = f + 1 := ⟨fuel - 1, by omega⟩
      have hatt : attempt + 1 = k := by omega
      obtain ⟨events, hres, hnone⟩ :=
        tryBlock_of_succeeds (w (attempt + 1)) network networkArg rpcUrl σ.env
          (by rw [hatt]; exact hsucc)
      rw [retryLoop, if_pos (by omega)]
      simp only [hres]
      refine ⟨_, trace ++ [Event.log (.attemptStart (attempt + 1) networkArg)] ++ events,
        rfl, rfl, hatt, ?_, ?_⟩
      · simp [List.filterMap_append, hnone, Event.attemptStarted, List.range']
      · simp
  | succ n ih =>
      intro fuel attempt trace hsum hfuel
      obtain ⟨fuel, rfl⟩ : ∃ f, fuel = f + 1 := ⟨fuel - 1, by omega⟩
      obtain ⟨events, message, hres, hnone, -⟩ :=
        tryBlock_of_fails (w (attempt + 1)) network networkArg rpcUrl σ.env
          (hfail (attempt + 1) (by omega) (by omega))
      rw [retryLoop, if_pos (by omega)]
      simp only [hres]
      have hge : ¬ attempt + 1 ≥ MAX_RETRIES := by omega
      simp only [hge, if_false]
      obtain ⟨out, before, hout, hterm, hatt, hfm, htr⟩ :=
        ih fuel (attempt + 1)
          (trace ++ [Event.log (.attemptStart (attempt + 1) networkArg)] ++ events ++
            [Event.error (.attemptFailed (attempt + 1) message)] ++ [Event.log .retrying])
          (by omega) (by omega)
      refine ⟨out, before, hout, hterm, hatt, ?_, htr⟩
      rw [hfm]
      simp [List.filterMap_append, hnone, Event.attemptStarted, List.range']

/-! ## Lemmas on the script -/

theorem supported_cases (networkArg : String) (p : NetworkProfile)
    (hnet : getProperty networks networkArg = .profile p) :
    (networkArg = "optimism-mainnet" ∧ p = optimismMainnet) ∨
    (networkArg = "base-mainnet" ∧ p = baseMainnet) ∨
    (networkArg = "gnosis-mainnet" ∧ p = gnosisMainnet) ∨
    (networkArg = "world-mainnet" ∧ p = worldMainnet) := by
  unfold getProperty networks at hnet
  simp only [getEntry] at hnet
  by_cases h1 : "optimism-mainnet" = networkArg
  · left; simp [h1] at hnet; exact ⟨h1.symm, hnet.symm⟩
  by_cases h2 : "base-mainnet" = networkArg
  · right; left; simp [h1, h2] at hnet; exact ⟨h2.symm, hnet.symm⟩
  by_cases h3 : "gnosis-mainnet" = networkArg
  · right; right; left; simp [h1, h2, h3] at hnet; exact ⟨h3.symm, hnet.symm⟩
  by_cases h4 : "world-mainnet" = networkArg
  · right; right; right; simp [h1, h2, h3, h4] at hnet; exact ⟨h4.symm, hnet.symm⟩
  · simp only [h1, h2, h3, h4, if_false] at hnet
    split at hnet <;> cases hnet

theorem supported_ne_empty (networkArg : String) (p : NetworkProfile)
    (hnet : getProperty networks networkArg = .profile p) : networkArg ≠ "" := by
  rcases supported_cases networkArg p hnet with h | h | h | h <;>
    (rw [h.1]; decide)

theorem driver_supported (w : World) (dirname : Path) (fs : Node) (faults : Faults)
    (env : ProcessEnv)
    (networkArg : String) (rest : List String) (p : NetworkProfile)
    (hnet : getProperty networks networkArg = .profile p) :
    driver w dirname fs faults (networkArg :: rest) (initialStore env) =
      runNetwork w dirname fs faults networkArg (initialStore env) := by
  have hne := supported_ne_empty networkArg p hnet
  simp [driver, strTruthy, initialStore, hnet, TableValue.truthy, hne]

theorem prepareEvents_no_attempt (fs : Node) (p : Path) :
    (prepareEvents fs p).filterMap Event.attemptStarted = [] := by
  unfold prepareEvents
  split <;> simp [Event.attemptStarted]

theorem driver_reaches_loop (w : World) (dirname : Path) (fs : Node) (faults : Faults)
    (env : ProcessEnv)
    (networkArg : String) (rest : List String) (p : NetworkProfile) (rpcUrl : String)
    (hnet : getProperty networks networkArg = .profile p)
    (hrpc : getEntry env p.rpcEnvVar = some rpcUrl) (hset : rpcUrl ≠ "")
    (hprep : ∃ fs', prepareOutputDir faults fs (outputDir dirname) = .ok fs') :
    driver w dirname fs faults (networkArg :: rest) (initialStore env) =
      retryLoop w (.profile p) networkArg rpcUrl (initialStore env) (MAX_RETRIES + 1) 0
        (prepareEvents fs (outputDir dirname)) := by
  obtain ⟨fs', hfs⟩ := hprep
  rw [driver_supported w dirname fs faults env networkArg rest p hnet]
  simp [runNetwork, initialStore, hnet, TableValue.rpcEnvVar, tmpl, hrpc, strTruthy, hset, hfs]

/-! ## The retry ceiling, the success path, the missing credential -/

/-- C1. For a supported network whose RPC variable holds a non-empty value,
once the script reaches the retry loop (the preparation of the output
directory did not throw), if each of the attempts 1 to 50 fails then the
script ends through `process.exit(1)` with the counter at 50, the attempts it
announced are exactly 1, 2, ..., 50 in this order, and the last two events of
the run are the failure report of attempt 50 and the exhaustion message, so
nothing is started after the 50th failure. -/
theorem retry_ceiling (w : World) (dirname : Path) (fs : Node) (faults : Faults)
    (env : ProcessEnv)
    (networkArg : String) (rest : List String) (p : NetworkProfile) (rpcUrl : String)
    (hnet : getProperty networks networkArg = .profile p)
    (hrpc : getEntry env p.rpcEnvVar = some rpcUrl) (hset : rpcUrl ≠ "")
    (hprep : ∃ fs', prepareOutputDir faults fs (outputDir dirname) = .ok fs')
    (hfail : ∀ i, 1 ≤ i → i ≤ MAX_RETRIES → (w i).fails) :
    ∃ out message,
      driver w dirname fs faults (networkArg :: rest) (initialStore env) = some out ∧
      out.termination = .exit 1 ∧ out.termination.exitCode = 1 ∧
      out.attempt = 50 ∧
      out.trace.filterMap Event.attemptStarted = List.range' 1 50 ∧
      [Event.error (.attemptFailed 50 message), Event.error .exceeded] <:+ out.trace ∧
      Msg.exceeded.text = "Exceeded maximum retries (50). Exiting." := by
  rw [driver_reaches_loop w dirname fs faults env networkArg rest p rpcUrl hnet hrpc hset hprep]
  obtain ⟨out, message, hout, hterm, hatt, hfm, hsuf⟩ :=
    retryLoop_all_fail w (.profile p) networkArg rpcUrl (initialStore env) hfail
      50 (MAX_RETRIES + 1) 0 (prepareEvents fs (outputDir dirname)) rfl (by omega)
      (by unfold MAX_RETRIES; omega)
  refine ⟨out, message, hout, hterm, by rw [hterm]; rfl, hatt, ?_, hsuf, by decide⟩
  rw [hfm, prepareEvents_no_attempt]
  rfl

theorem retry_ceiling_witness :
    ∃ out message,
      driver (fun _ => ⟨.ok, .ok, .threw "exit status 1"⟩) ["repo"] (.dir []) noFaults
        ["gnosis-mainnet"] (initialStore [("GNOSIS_MAINNET_RPC_URL", "http://localhost:8545")])
        = some out ∧
      out.termination = .exit 1 ∧ out.termination.exitCode = 1 ∧
      out.attempt = 50 ∧
      out.trace.filterMap Event.attemptStarted = List.range' 1 50 ∧
      [Event.error (.attemptFailed 50 message), Event.error .exceeded] <:+ out.trace ∧
      Msg.exceeded.text = "Exceeded maximum retries (50). Exiting." :=
  retry_ceiling _ ["repo"] (.dir []) noFaults _ "gnosis-mainnet" [] gnosisMainnet
    "http://localhost:8545" (by decide) (by decide) (by decide) ⟨_, rfl⟩
    (fun _ _ _ => Or.inr (by decide))

/-- C4. For a supported network whose RPC variable holds a non-empty value and
every k from 1 to 50, once the script reaches the retry loop, if attempts 1 to
k-1 fail and attempt k succeeds then the script runs to its end (exit code 0)
with the counter at k, the attempts it announced are exactly 1, ..., k, and
the last three events of the run are the compileWinners invocation, the
success line naming the network argument and the line naming
`./winners/vaultAccounts/<chainId>/`: nothing is invoked afterwards. -/
theorem success_at_attempt (w : World) (dirname : Path) (fs : Node) (faults : Faults)
    (env : ProcessEnv)
    (networkArg : String) (rest : List String) (p : NetworkProfile) (rpcUrl : String)
    (k : Nat)
    (hnet : getProperty networks networkArg = .profile p)
    (hrpc : getEntry env p.rpcEnvVar = some rpcUrl) (hset : rpcUrl ≠ "")
    (hprep : ∃ fs', prepareOutputDir faults fs (outputDir dirname) = .ok fs')
    (hk₁ : 1 ≤ k) (hk : k ≤ 50)
    (hfail : ∀ i, 1 ≤ i → i < k → (w i).fails) (hsucc : (w k).succeeds) :
    ∃ out,
      driver w dirname fs faults (networkArg :: rest) (initialStore env) = some out ∧
      out.termination = .endOfScript ∧ out.termination.exitCode = 0 ∧
      out.attempt = k ∧
      out.trace.filterMap Event.attemptStarted = List.range' 1 k ∧
      [Event.execSync (command (.profile p)) (some (childEnv env rpcUrl)),
       Event.log (.succeeded networkArg),
       Event.log (.resultsSaved (toString p.chainId))] <:+ out.trace ∧
      (Msg.succeeded networkArg).text =
        "\nSuccessfully computed winners for " ++ networkArg ++ "!" ∧
      (Msg.resultsSaved (toString p.chainId)).text =
        "Results saved to ./winners/vaultAccounts/" ++ toString p.chainId ++ "/" := by
  rw [driver_reaches_loop w dirname fs faults env networkArg rest p rpcUrl hnet hrpc hset hprep]
  obtain ⟨out, before, hout, hterm, hatt, hfm, htr⟩ :=
    retryLoop_success w (.profile p) networkArg rpcUrl (initialStore env) k
      (by unfold MAX_RETRIES; omega) hfail hsucc (k - 1) (MAX_RETRIES + 1) 0
      (prepareEvents fs (outputDir dirname)) (by omega) (by unfold MAX_RETRIES; omega)
  refine ⟨out, hout, hterm, by rw [hterm]; rfl, hatt, ?_, ⟨before, htr.symm⟩, rfl, ?_⟩
  · rw [hfm, prepareEvents_no_attempt]
    have : k - 1 + 1 = k := by omega
    rw [this]
    rfl
  · have h : "Results saved to ./" ++ OUTPUT_DIRECTORY_NAME ++ "/" =
        "Results saved to ./winners/vaultAccounts/" := by decide
    simp only [Msg.text, h]

theorem success_at_attempt_witness :
    ∃ out,
      driver (fun i => if i = 3 then ⟨.threw "ENOENT", .ok, .ok⟩ else ⟨.ok, .ok, .threw "exit status 1"⟩)
        ["repo"] (.dir []) noFaults ["base-mainnet"]
        (initialStore [("BASE_MAINNET_RPC_URL", "http://localhost:8545")]) = some out ∧
      out.termination = .endOfScript ∧ out.termination.exitCode = 0 ∧
      out.attempt = 3 ∧
      out.trace.filterMap Event.attemptStarted = List.range' 1 3 ∧
      [Event.execSync (command (.profile baseMainnet))
         (some (childEnv [("BASE_MAINNET_RPC_URL", "http://localhost:8545")]
           "http://localhost:8545")),
       Event.log (.succeeded "base-mainnet"),
       Event.log (.resultsSaved (toString baseMainnet.chainId))] <:+ out.trace ∧
      (Msg.succeeded "base-mainnet").text =
        "\nSuccessfully computed winners for " ++ "base-mainnet" ++ "!" ∧
      (Msg.resultsSaved (toString baseMainnet.chainId)).text =
        "Results saved to ./winners/vaultAccounts/" ++ toString baseMainnet.chainId ++ "/" :=
  success_at_attempt _ ["repo"] (.dir []) noFaults _ "base-mainnet" [] baseMainnet
    "http://localhost:8545" 3 (by decide) (by decide) (by decide) ⟨_, rfl⟩
    (by decide) (by decide)
    (fun i _ h3 => Or.inr (by
      have hne : i ≠ 3 := by omega
      simp [hne]))
    ⟨Or.inr (by simp), by simp⟩

/-- C3. For a supported network whose RPC variable is unset or empty, the
script prints two lines to the error stream, both containing the exact name of
the variable, and calls `process.exit(1)`; these two lines are its whole
trace, so no directory is created, no subprocess is started and the counter
stays at 0. -/
theorem missing_credential (w : World) (dirname : Path) (fs : Node) (faults : Faults)
    (env : ProcessEnv)
    (networkArg : String) (rest : List String) (p : NetworkProfile)
    (hnet : getProperty networks networkArg = .profile p)
    (hrpc : getEntry env p.rpcEnvVar = none ∨ getEntry env p.rpcEnvVar = some "") :
    driver w dirname fs faults (networkArg :: rest) (initialStore env) =
        some ⟨.exit 1, 0,
          [.error (.rpcNotSet p.rpcEnvVar), .error (.rpcSetHint p.rpcEnvVar)],
          initialStore env⟩ ∧
      (Termination.exit 1).exitCode = 1 ∧
      (Msg.rpcNotSet p.rpcEnvVar).text =
        "Error: " ++ p.rpcEnvVar ++ " environment variable is not set." ∧
      (Msg.rpcSetHint p.rpcEnvVar).text =
        "Please set it using: export " ++ p.rpcEnvVar ++ "=<your-rpc-url>" := by
  refine ⟨?_, rfl, rfl, rfl⟩
  rw [driver_supported w dirname fs faults env networkArg rest p hnet]
  rcases hrpc with h | h <;>
    simp [runNetwork, initialStore, hnet, TableValue.rpcEnvVar, tmpl, h, strTruthy]

theorem missing_credential_witness :
    driver (fun _ => ⟨.ok, .ok, .ok⟩) ["repo"] (.dir []) noFaults ["world-mainnet"]
        (initialStore [("WORLD_MAINNET_RPC_URL", ""), ("HOME", "/root")]) =
        some ⟨.exit 1, 0,
          [.error (.rpcNotSet worldMainnet.rpcEnvVar),
           .error (.rpcSetHint worldMainnet.rpcEnvVar)],
          initialStore [("WORLD_MAINNET_RPC_URL", ""), ("HOME", "/root")]⟩ ∧
      (Termination.exit 1).exitCode = 1 ∧
      (Msg.rpcNotSet worldMainnet.rpcEnvVar).text =
        "Error: " ++ worldMainnet.rpcEnvVar ++ " environment variable is not set." ∧
      (Msg.rpcSetHint worldMainnet.rpcEnvVar).text =
        "Please set it using: export " ++ worldMainnet.rpcEnvVar ++ "=<your-rpc-url>" :=
  missing_credential _ ["repo"] (.dir []) noFaults _ "world-mainnet" [] worldMainnet
    (by decide) (Or.inr (by decide))

/-! ## The table, the store and the child environment -/

theorem prepareEvents_execShape (fs : Node) (p : Path) (network : TableValue)
    (env : ProcessEnv) (rpcUrl : String) :
    ∀ e ∈ prepareEvents fs p, e.execShape network env rpcUrl := by
  intro e he
  unfold prepareEvents at he
  split at he
  · rw [List.mem_singleton.1 he]; trivial
  · cases he

theorem runNetwork_total (w : World) (dirname : Path) (fs : Node) (faults : Faults)
    (networkArg : String)
    (σ : Store) :
    ∃ out, runNetwork w dirname fs faults networkArg σ = some out ∧ out.store = σ ∧
      ∀ e ∈ out.trace, e.execShape (getProperty σ.networks networkArg) σ.env
        (tmpl (getEntry σ.env (tmpl (getProperty σ.networks networkArg).rpcEnvVar))) := by
  unfold runNetwork
  simp only []
  split
  · refine ⟨_, rfl, rfl, ?_⟩
    intro e he
    simp only [List.mem_cons, List.mem_singleton, List.not_mem_nil, or_false] at he
    rcases he with rfl | rfl <;> trivial
  · split
    · exact ⟨_, rfl, rfl, prepareEvents_execShape _ _ _ _ _⟩
    · exact retryLoop_total w _ networkArg _ σ (MAX_RETRIES + 1) 0 _ (by omega) (by omega)
        (prepareEvents_execShape _ _ _ _ _)

theorem driver_total (w : World) (dirname : Path) (fs : Node) (faults : Faults)
    (args : List String)
    (σ : Store) : ∃ out, driver w dirname fs faults args σ = some out ∧ out.store = σ := by
  unfold driver
  split
  · exact ⟨_, rfl, rfl⟩
  · split
    · exact ⟨_, rfl, rfl⟩
    · obtain ⟨out, hout, hstore, -⟩ := runNetwork_total w dirname fs faults _ σ
      exact ⟨out, hout, hstore⟩

theorem command_ne_probe_install (networkArg : String) (p : NetworkProfile)
    (hnet : getProperty networks networkArg = .profile p) :
    command (.profile p) ≠ probeCommand ∧ command (.profile p) ≠ installCommand := by
  rcases supported_cases networkArg p hnet with h | h | h | h <;>
    (rw [h.2]; decide)

/-- C6. Looking up each of the four supported identifiers gives its entry of
the table, with chain ids 10, 8453, 100 and 480; in every entry the prize-pool
address, the contract-manifest URL, the subgraph URL and the name of the RPC
variable are non-empty; and every run of the script, whatever its arguments,
environment, filesystem and subprocesses, ends with the table as it was, so a
lookup after the run gives what it gave before. -/
theorem resolver_table :
    (getProperty networks "optimism-mainnet" = .profile optimismMainnet ∧
      optimismMainnet.chainId = 10) ∧
    (getProperty networks "base-mainnet" = .profile baseMainnet ∧
      baseMainnet.chainId = 8453) ∧
    (getProperty networks "gnosis-mainnet" = .profile gnosisMainnet ∧
      gnosisMainnet.chainId = 100) ∧
    (getProperty networks "world-mainnet" = .profile worldMainnet ∧
      worldMainnet.chainId = 480) ∧
    (networks.all fun kv =>
      kv.2.prizePoolAddress != "" && kv.2.contractJsonUrl != "" &&
        kv.2.subgraphUrl != "" && kv.2.rpcEnvVar != "") = true ∧
    (∀ (w : World) (dirname : Path) (fs : Node) (faults : Faults)
    (args : List String) (env : ProcessEnv),
      ∃ out, driver w dirname fs faults args (initialStore env) = some out ∧
        out.store.networks = networks ∧
        ∀ key, getProperty out.store.networks key = getProperty networks key) := by
  refine ⟨by decide, by decide, by decide, by decide, by decide, ?_⟩
  intro w dirname fs faults args env
  obtain ⟨out, hout, hstore⟩ := driver_total w dirname fs faults args (initialStore env)
  refine ⟨out, hout, by rw [hstore]; rfl, fun key => by rw [hstore]; rfl⟩

/-- C7. For every parent environment and every supported network whose RPC
variable holds a non-empty value, the `env` object built for the
compileWinners child maps `JSON_RPC_URL` to the value read from the
network's variable, `NODE_OPTIONS` to `--max_old_space_size=32768`,
`PRIZE_TIERS_TO_COMPUTE` to `0,1,2,3,4,5` and `DEBUG` to `true`, whatever the
parent has under these keys, and every other key to the parent's value; the
run of the script hands exactly this object to every compileWinners
invocation and ends with the parent environment unchanged. -/
theorem child_env_overlay (w : World) (dirname : Path) (fs : Node) (faults : Faults)
    (env : ProcessEnv)
    (networkArg : String) (rest : List String) (p : NetworkProfile) (rpcUrl : String)
    (hnet : getProperty networks networkArg = .profile p)
    (hrpc : getEntry env p.rpcEnvVar = some rpcUrl) (_hset : rpcUrl ≠ "") :
    getEntry (childEnv env rpcUrl) "JSON_RPC_URL" = some (.str rpcUrl) ∧
    getEntry (childEnv env rpcUrl) "NODE_OPTIONS" = some (.str "--max_old_space_size=32768") ∧
    getEntry (childEnv env rpcUrl) "PRIZE_TIERS_TO_COMPUTE" = some (.str "0,1,2,3,4,5") ∧
    getEntry (childEnv env rpcUrl) "DEBUG" = some (.bool true) ∧
    (∀ key, key ∉ ["JSON_RPC_URL", "NODE_OPTIONS", "PRIZE_TIERS_TO_COMPUTE", "DEBUG"] →
      getEntry (childEnv env rpcUrl) key = (getEntry env key).map EnvVal.str) ∧
    ∃ out, driver w dirname fs faults (networkArg :: rest) (initialStore env) = some out ∧
      out.store.env = env ∧
      ∀ e, Event.execSync (command (.profile p)) e ∈ out.trace →
        e = some (childEnv env rpcUrl) := by
  have hJ : getEntry (childEnv env rpcUrl) "JSON_RPC_URL" = some (.str rpcUrl) := by
    unfold childEnv
    simp only []
    rw [getEntry_setEntry_other _ _ _ _ (by decide), getEntry_setEntry_other _ _ _ _ (by decide),
      getEntry_setEntry_other _ _ _ _ (by decide), getEntry_setEntry_same]
  have hN : getEntry (childEnv env rpcUrl) "NODE_OPTIONS" =
      some (.str "--max_old_space_size=32768") := by
    unfold childEnv
    simp only []
    rw [getEntry_setEntry_other _ _ _ _ (by decide), getEntry_setEntry_other _ _ _ _ (by decide),
      getEntry_setEntry_same]
  have hP : getEntry (childEnv env rpcUrl) "PRIZE_TIERS_TO_COMPUTE" =
      some (.str "0,1,2,3,4,5") := by
    unfold childEnv
    simp only []
    rw [getEntry_setEntry_other _ _ _ _ (by decide), getEntry_setEntry_same]
    rfl
  have hD : getEntry (childEnv env rpcUrl) "DEBUG" = some (.bool true) := by
    unfold childEnv
    simp only []
    rw [getEntry_setEntry_same]
  refine ⟨hJ, hN, hP, hD, ?_, ?_⟩
  · intro key hkey
    simp only [List.mem_cons, List.mem_singleton, List.not_mem_nil, or_false, not_or] at hkey
    obtain ⟨h1, h2, h3, h4⟩ := hkey
    unfold childEnv
    simp only []
    rw [getEntry_setEntry_other _ _ _ _ h4, getEntry_setEntry_other _ _ _ _ h3,
      getEntry_setEntry_other _ _ _ _ h2, getEntry_setEntry_other _ _ _ _ h1,
      getEntry_map_str]
  · rw [driver_supported w dirname fs faults env networkArg rest p hnet]
    obtain ⟨out, hout, hstore, hshape⟩ :=
      runNetwork_total w dirname fs faults networkArg (initialStore env)
    refine ⟨out, hout, by rw [hstore]; rfl, ?_⟩
    intro e he
    have hs := hshape _ he
    simp only [initialStore, hnet, TableValue.rpcEnvVar, tmpl, hrpc, Event.execShape] at hs
    obtain ⟨hp, hi⟩ := command_ne_probe_install networkArg p hnet
    rcases hs with ⟨h, -⟩ | ⟨h, -⟩ | ⟨-, h⟩
    · exact absurd h hp
    · exact absurd h hi
    · exact h

theorem child_env_overlay_witness :
    getEntry (childEnv [("DEBUG", "false"), ("OPTIMISM_MAINNET_RPC_URL", "http://localhost:8545")]
        "http://localhost:8545") "JSON_RPC_URL" = some (.str "http://localhost:8545") ∧
    getEntry (childEnv [("DEBUG", "false"), ("OPTIMISM_MAINNET_RPC_URL", "http://localhost:8545")]
        "http://localhost:8545") "NODE_OPTIONS" = some (.str "--max_old_space_size=32768") ∧
    getEntry (childEnv [("DEBUG", "false"), ("OPTIMISM_MAINNET_RPC_URL", "http://localhost:8545")]
        "http://localhost:8545") "PRIZE_TIERS_TO_COMPUTE" = some (.str "0,1,2,3,4,5") ∧
    getEntry (childEnv [("DEBUG", "false"), ("OPTIMISM_MAINNET_RPC_URL", "http://localhost:8545")]
        "http://localhost:8545") "DEBUG" = some (.bool true) ∧
    (∀ key, key ∉ ["JSON_RPC_URL", "NODE_OPTIONS", "PRIZE_TIERS_TO_COMPUTE", "DEBUG"] →
      getEntry (childEnv [("DEBUG", "false"), ("OPTIMISM_MAINNET_RPC_URL", "http://localhost:8545")]
        "http://localhost:8545") key =
        (getEntry [("DEBUG", "false"), ("OPTIMISM_MAINNET_RPC_URL", "http://localhost:8545")]
          key).map EnvVal.str) ∧
    ∃ out, driver (fun _ => ⟨.ok, .ok, .ok⟩) ["repo"] (.dir []) noFaults ["optimism-mainnet"]
        (initialStore [("DEBUG", "false"), ("OPTIMISM_MAINNET_RPC_URL", "http://localhost:8545")])
        = some out ∧
      out.store.env = [("DEBUG", "false"), ("OPTIMISM_MAINNET_RPC_URL", "http://localhost:8545")] ∧
      ∀ e, Event.execSync (command (.profile optimismMainnet)) e ∈ out.trace →
        e = some (childEnv [("DEBUG", "false"), ("OPTIMISM_MAINNET_RPC_URL", "http://localhost:8545")]
          "http://localhost:8545") :=
  child_env_overlay _ ["repo"] (.dir []) noFaults _ "optimism-mainnet" [] optimismMainnet
    "http://localhost:8545" (by decide) (by decide) (by decide)

/-! ## The output directory -/

theorem isFile_empty_dir (q : Path) : isFile (.dir []) q = false := by
  cases q <;> simp [isFile, Node.find, getEntry, Node.isDir]

theorem find_empty_dir (c : String) (q : Path) : (Node.dir []).find (c :: q) = none := by
  simp [Node.find, getEntry]

theorem find_initial_segment :
    ∀ (q r : Path) (n : Node), (n.find (q ++ r)).isSome = true → (n.find q).isSome = true := by
  intro q
  induction q with
  | nil => intro r n _; simp [Node.find]
  | cons c cs ih =>
      intro r n h
      cases n with
      | file => simp [Node.find] at h
      | dir es =>
          simp only [List.cons_append, Node.find] at h ⊢
          cases hget : getEntry es c with
          | none => simp [hget] at h
          | some m =>
              simp only [hget] at h ⊢
              exact ih r m h

theorem mkdirSync_clear (faults : Faults) :
    ∀ (p walked : Path) (n : Node), (∀ q ∈ p.inits, isFile n q = false) →
      (∀ q ∈ p.inits, existsSync n q = false → faults (walked ++ q) = none) →
      ∃ n', mkdirSync faults walked n p = .ok n' ∧
        (∀ q ∈ p.inits, isDirectory n' q = true) ∧
        (∀ q, ¬ q <+: p → n'.find q = n.find q) := by
  intro p
  induction p with
  | nil =>
      intro walked n h _
      have h0 := h [] (by simp)
      cases n with
      | file => simp [isFile, Node.find, Node.isDir] at h0
      | dir es =>
          refine ⟨.dir es, rfl, ?_, fun _ _ => rfl⟩
          intro q hq
          rw [List.mem_inits, List.prefix_nil] at hq
          subst hq
          simp [isDirectory, Node.find, Node.isDir]
  | cons c cs ih =>
      intro walked n h hf
      have h0 := h [] (by simp)
      cases n with
      | file => simp [isFile, Node.find, Node.isDir] at h0
      | dir es =>
          have hmem : ∀ q, q ∈ cs.inits → c :: q ∈ (c :: cs).inits := by
            intro q hq
            rw [List.mem_inits] at hq ⊢
            exact List.cons_prefix_cons.2 ⟨rfl, hq⟩
          have hwalk : ∀ q : Path, walked ++ [c] ++ q = walked ++ c :: q := by
            intro q; simp
          -- what the step does below the entry it continues from
          have hstep : ∀ (m n' : Node),
              (getEntry es c = some m ∨ (getEntry es c = none ∧ m = .dir [])) →
              (∀ q ∈ cs.inits, isDirectory n' q = true) →
              (∀ q, ¬ q <+: cs → n'.find q = m.find q) →
              (∀ q ∈ (c :: cs).inits, isDirectory (.dir (setEntry es c n')) q = true) ∧
              (∀ q, ¬ q <+: c :: cs →
                (Node.dir (setEntry es c n')).find q = (Node.dir es).find q) := by
            intro m n' hm hdir hframe
            constructor
            · intro q hq
              rw [List.mem_inits] at hq
              cases q with
              | nil => simp [isDirectory, Node.find, Node.isDir]
              | cons d qs =>
                  obtain ⟨rfl, hqs⟩ := List.cons_prefix_cons.1 hq
                  have := hdir qs ((List.mem_inits _ _).2 hqs)
                  simpa [isDirectory, Node.find, getEntry_setEntry_same] using this
            · intro q hq
              cases q with
              | nil => exact absurd (List.nil_prefix) hq
              | cons d qs =>
                  by_cases hd : d = c
                  · subst hd
                    have hqs : ¬ qs <+: cs := fun hp => hq (List.cons_prefix_cons.2 ⟨rfl, hp⟩)
                    have hfr := hframe qs hqs
                    rcases hm with hm | ⟨hm, rfl⟩
                    · simp [Node.find, getEntry_setEntry_same, hm, hfr]
                    · cases qs with
                      | nil => exact absurd (List.nil_prefix) hqs
                      | cons x xs =>
                          rw [find_empty_dir] at hfr
                          simp [Node.find, getEntry_setEntry_same, hm, hfr]
                  · simp [Node.find, getEntry_setEntry_other _ _ _ _ hd]
          cases hget : getEntry es c with
          | some m =>
              have hchild : ∀ q ∈ cs.inits, isFile m q = false := by
                intro q hq
                have hc := h (c :: q) (hmem q hq)
                simpa [isFile, Node.find, hget] using hc
              have hchildf : ∀ q ∈ cs.inits, existsSync m q = false →
                  faults (walked ++ [c] ++ q) = none := by
                intro q hq hex
                rw [hwalk]
                apply hf (c :: q) (hmem q hq)
                simpa [existsSync, Node.find, hget] using hex
              obtain ⟨n', hn', hdir, hframe⟩ := ih (walked ++ [c]) m hchild hchildf
              obtain ⟨h1, h2⟩ := hstep m n' (Or.inl hget) hdir hframe
              exact ⟨.dir (setEntry es c n'), by simp [mkdirSync, hget, hn'], h1, h2⟩
          | none =>
              have hcreate : faults (walked ++ [c]) = none := by
                apply hf [c] (hmem [] (by simp))
                simp [existsSync, Node.find, hget]
              have hchild : ∀ q ∈ cs.inits, isFile (.dir []) q = false :=
                fun q _ => isFile_empty_dir q
              have hchildf : ∀ q ∈ cs.inits, existsSync (.dir []) q = false →
                  faults (walked ++ [c] ++ q) = none := by
                intro q hq _
                rw [hwalk]
                apply hf (c :: q) (hmem q hq)
                simp [existsSync, Node.find, hget]
              obtain ⟨n', hn', hdir, hframe⟩ := ih (walked ++ [c]) (.dir []) hchild hchildf
              obtain ⟨h1, h2⟩ := hstep (.dir []) n' (Or.inr ⟨hget, rfl⟩) hdir hframe
              exact ⟨.dir (setEntry es c n'), by simp [mkdirSync, hget, hcreate, hn'], h1, h2⟩

theorem prepareOutputDir_clear (fs : Node) (faults : Faults) (p : Path)
    (hclear : ∀ q ∈ p.inits, isFile fs q = false)
    (hperm : ∀ q ∈ p.inits, existsSync fs q = false → faults q = none) :
    ∃ fs', prepareOutputDir faults fs p = .ok fs' ∧
      isDirectory fs' p = true ∧
      (∀ q ∈ p.inits, isDirectory fs' q = true) ∧
      (∀ q, ¬ q <+: p → fs'.find q = fs.find q) ∧
      (∀ faults', prepareOutputDir faults' fs' p = .ok fs') ∧
      prepareEvents fs' p = [] := by
  have hsecond : ∀ fs' : Node, isDirectory fs' p = true →
      (∀ faults', prepareOutputDir faults' fs' p = .ok fs') ∧ prepareEvents fs' p = [] := by
    intro fs' hdir
    have hex : existsSync fs' p = true := by
      unfold isDirectory at hdir
      unfold existsSync
      cases hfind : fs'.find p with
      | none => simp [hfind] at hdir
      | some n => rfl
    exact ⟨fun _ => by simp [prepareOutputDir, hex], by simp [prepareEvents, hex]⟩
  by_cases hex : existsSync fs p = true
  · have hall : ∀ q ∈ p.inits, isDirectory fs q = true := by
      intro q hq
      obtain ⟨r, rfl⟩ := (List.mem_inits _ _).1 hq
      have hsome := find_initial_segment q r fs hex
      have hq' := hclear q hq
      unfold isFile at hq'
      unfold isDirectory
      cases hfind : fs.find q with
      | none => simp [hfind] at hsome
      | some n => simpa [hfind] using hq'
    have hdir := hall p (by simp)
    exact ⟨fs, by simp [prepareOutputDir, hex], hdir, hall, fun _ _ => rfl, hsecond fs hdir⟩
  · obtain ⟨fs', hmk, hall, hframe⟩ :=
      mkdirSync_clear faults p [] fs hclear (by simpa using hperm)
    have hdir := hall p (by simp)
    exact ⟨fs', by simp [prepareOutputDir, hex, hmk], hdir, hall, hframe, hsecond fs' hdir⟩

/-- C8, as amended.  From every filesystem state in which the output path and
each of its ancestors is either absent or a directory, and in which the
operating system refuses none of the creations of the missing ones (no
permission, read-only or space fault), the preparation step of lines 73-75
succeeds and leaves exactly one directory at the output path: the entry the
path names is a directory, so is every ancestor, and no entry off the path is
added, removed or changed.  Run again on the result, whatever the operating
system would refuse by then, it succeeds, calls nothing and returns the same
filesystem. -/
theorem prepare_output_dir_idempotent (fs : Node) (faults : Faults) (dirname : Path)
    (hclear : ∀ q ∈ (outputDir dirname).inits, isFile fs q = false)
    (hperm : ∀ q ∈ (outputDir dirname).inits, existsSync fs q = false → faults q = none) :
    ∃ fs', prepareOutputDir faults fs (outputDir dirname) = .ok fs' ∧
      isDirectory fs' (outputDir dirname) = true ∧
      (∀ q ∈ (outputDir dirname).inits, isDirectory fs' q = true) ∧
      (∀ q, ¬ q <+: outputDir dirname → fs'.find q = fs.find q) ∧
      (∀ faults', prepareOutputDir faults' fs' (outputDir dirname) = .ok fs') ∧
      prepareEvents fs' (outputDir dirname) = [] :=
  prepareOutputDir_clear fs faults (outputDir dirname) hclear hperm

theorem prepare_output_dir_idempotent_witness :
    ∃ fs', prepareOutputDir noFaults freshCheckout (outputDir ["repo"]) = .ok fs' ∧
      isDirectory fs' (outputDir ["repo"]) = true ∧
      (∀ q ∈ (outputDir ["repo"]).inits, isDirectory fs' q = true) ∧
      (∀ q, ¬ q <+: outputDir ["repo"] → fs'.find q = freshCheckout.find q) ∧
      (∀ faults', prepareOutputDir faults' fs' (outputDir ["repo"]) = .ok fs') ∧
      prepareEvents fs' (outputDir ["repo"]) = [] :=
  prepare_output_dir_idempotent freshCheckout noFaults ["repo"] (by decide)
    (fun _ _ _ => rfl)

/-- C8 as stated fails: the step can error.  With a regular file at `winners`
in the script directory the call of `mkdirSync` throws `ENOTDIR`; on a
read-only disk it throws `EROFS` from a checkout that holds nothing but the
script.  In both runs the script died of the exception before the retry loop
and no directory is at the output path. -/
theorem prepare_output_dir_blocked :
    (prepareOutputDir noFaults fileAtWinners (outputDir ["repo"]) = .error "ENOTDIR" ∧
      prepareEvents fileAtWinners (outputDir ["repo"]) =
        [.mkdirSync ["repo", "winners", "vaultAccounts"]] ∧
      isDirectory fileAtWinners (outputDir ["repo"]) = false) ∧
    (prepareOutputDir readOnlyDisk freshCheckout (outputDir ["repo"]) = .error "EROFS" ∧
      prepareEvents freshCheckout (outputDir ["repo"]) =
        [.mkdirSync ["repo", "winners", "vaultAccounts"]] ∧
      isDirectory freshCheckout (outputDir ["repo"]) = false) ∧
    (driver quietWorld ["repo"] freshCheckout readOnlyDisk ["gnosis-mainnet"]
        (initialStore [("GNOSIS_MAINNET_RPC_URL", "http://localhost:8545")])).map
        (fun out => (out.termination, out.attempt, out.trace)) =
      some (.uncaught "EROFS", 0, [.mkdirSync ["repo", "winners", "vaultAccounts"]]) := by
  refine ⟨⟨rfl, by decide, by decide⟩, ⟨rfl, by decide, by decide⟩, by decide⟩

/-- The case the amended C8 leaves out.  With a regular file at the output
path `existsSync` is true, so lines 73-75 call nothing and return without an
error, although the comment of line 71 has the step ensure that the output
directory exists: no directory is at the path when the retry loop starts. -/
theorem prepare_skips_regular_file :
    prepareOutputDir noFaults fileAtOutputPath (outputDir ["repo"]) = .ok fileAtOutputPath ∧
    prepareEvents fileAtOutputPath (outputDir ["repo"]) = [] ∧
    isDirectory fileAtOutputPath (outputDir ["repo"]) = false ∧
    isFile fileAtOutputPath (outputDir ["repo"]) = true := by
  refine ⟨rfl, by decide, by decide, by decide⟩

/-! ## The argument guard -/

/-- A missing argument, an empty one, and one that is neither a key of the
table nor a name inherited from `Object.prototype` all end in the usage
text: each supported identifier is printed, no subprocess is started, the
counter stays at 0 and the exit code is 1. -/
theorem driver_unknown_argument (w : World) (dirname : Path) (fs : Node) (faults : Faults)
    (args : List String) (env : ProcessEnv)
    (harg : args.head? = none ∨ ∃ a, args.head? = some a ∧
      (a = "" ∨ getProperty networks a = .undefined)) :
    driver w dirname fs faults args (initialStore env) =
      some ⟨.exit 1, 0,
        [.log .availableNetworks, .log (.networkItem "optimism-mainnet"),
         .log (.networkItem "base-mainnet"), .log (.networkItem "gnosis-mainnet"),
         .log (.networkItem "world-mainnet"), .log .usage, .log .usageExample],
        initialStore env⟩ := by
  unfold driver
  rcases harg with h | ⟨a, h, ha⟩
  · rw [h]; rfl
  · rw [h]
    rcases ha with rfl | ha
    · rfl
    · simp only [initialStore, ha, TableValue.truthy]
      simp [usageOutcome, networks]

/-- The invocation that the usage text of line 57 gives as its example,
`node run-local.js ethereum-mainnet`, names no key of the table and ends in
the usage text itself. -/
theorem usage_example_is_unsupported (w : World) (dirname : Path) (fs : Node)
    (faults : Faults) (env : ProcessEnv) :
    getProperty networks "ethereum-mainnet" = .undefined ∧
    (driver w dirname fs faults ["ethereum-mainnet"] (initialStore env)).map
      (fun out => out.termination) = some (.exit 1) := by
  have h : getProperty networks "ethereum-mainnet" = .undefined := by decide
  refine ⟨h, ?_⟩
  rw [driver_unknown_argument w dirname fs faults ["ethereum-mainnet"] env
    (Or.inr ⟨"ethereum-mainnet", rfl, Or.inr h⟩)]
  rfl

/-- C2 fails on the code.  The argument `toString` is not a supported
identifier, yet `networks[networkArg]` is the function every object inherits,
so the guard of line 53 lets it through: with an ordinary environment the
script prints only the two credential lines, naming a variable `undefined`,
and never the list of identifiers; with a variable named `undefined` set it
enters the retry loop and starts the subprocesses. -/
theorem inherited_key_passes_guard :
    getProperty networks "toString" = .inherited ∧
    driver quietWorld ["repo"] freshCheckout noFaults ["toString"]
        (initialStore [("HOME", "/root")]) =
      some ⟨.exit 1, 0,
        [.error (.rpcNotSet "undefined"), .error (.rpcSetHint "undefined")],
        initialStore [("HOME", "/root")]⟩ ∧
    (Msg.rpcNotSet "undefined").text = "Error: undefined environment variable is not set." ∧
    (driver quietWorld ["repo"] freshCheckout noFaults ["toString"]
        (initialStore [("undefined", "x")])).map
        (fun out => (out.termination, out.attempt, out.trace.map Event.isExec)) =
      some (.endOfScript, 1, [false, false, true, false, true, false, false]) := by
  refine ⟨by decide, by decide, by decide, by decide⟩

/-! ## The command line -/

set_option maxRecDepth 100000

/-- For each of the four profiles the command holds no line break and its
tokens are the common ones followed by `-m` and the text that the template
gives for `multicallAddress`. -/
theorem command_tokens (networkArg : String) (p : NetworkProfile)
    (hnet : getProperty networks networkArg = .profile p) :
    Char.ofNat 10 ∉ (command (.profile p)).data ∧
    words (command (.profile p)) = commonTokens p ++ ["-m", tmpl p.multicallAddress] := by
  rcases supported_cases networkArg p hnet with h | h | h | h <;>
    (rw [h.2]; exact ⟨by decide, by decide⟩)

/-- C5 fails on the code for the profiles without a multicall address.  The
tokens of the command built for optimism-mainnet and for base-mainnet end
with `-m undefined`, where the claim has the token sequence end after the
value of `-r`. -/
theorem command_tokens_without_multicall :
    optimismMainnet.multicallAddress = none ∧
    words (command (getProperty networks "optimism-mainnet")) =
      commonTokens optimismMainnet ++ ["-m", "undefined"] ∧
    baseMainnet.multicallAddress = none ∧
    words (command (getProperty networks "base-mainnet")) =
      commonTokens baseMainnet ++ ["-m", "undefined"] := by
  refine ⟨rfl, by decide, rfl, by decide⟩

/-- C10 fails on the code.  For optimism-mainnet and base-mainnet, whose
profiles have no multicall address, the command contains the text
`undefined`, passed as the value of `-m`. -/
theorem command_contains_undefined :
    "undefined".data <:+: (command (getProperty networks "optimism-mainnet")).data ∧
    ["-m", "undefined"] <:+ words (command (getProperty networks "optimism-mainnet")) ∧
    "undefined".data <:+: (command (getProperty networks "base-mainnet")).data ∧
    ["-m", "undefined"] <:+ words (command (getProperty networks "base-mainnet")) := by
  refine ⟨by decide, by decide, by decide, by decide⟩

/-! ## The ensured directory and the directory given to the tool -/

theorem resolveFrom_outputArg (cwd : Path) :
    resolveFrom cwd outputArg = cwd ++ ["winners", "vaultAccounts"] := by
  have h : segments outputArg = [".", "winners", "vaultAccounts"] := by decide
  simp [resolveFrom, h, applySegment]

theorem outputDir_eq (dirname : Path) :
    outputDir dirname = dirname ++ ["winners", "vaultAccounts"] := by
  have h : segments OUTPUT_DIRECTORY_NAME = ["winners", "vaultAccounts"] := by decide
  simp [outputDir, resolveFrom, h, applySegment]

/-- The directory the script ensures and the directory a child resolves the
value of `-o` to are the same exactly when the working directory is the
directory of the script. -/
theorem same_directory_iff (dirname cwd : Path) :
    outputDir dirname = resolveFrom cwd outputArg ↔ dirname = cwd := by
  rw [outputDir_eq, resolveFrom_outputArg]
  exact List.append_left_inj _

/-- C9 fails on the code.  With the script in `/repo` and the working
directory `/home/user`, the script creates `/repo/winners/vaultAccounts`,
while the value of `-o` in the command is `./winners/vaultAccounts`, which a
child started in `/home/user` resolves to `/home/user/winners/vaultAccounts`. -/
theorem ensured_directory_differs :
    prepareEvents freshCheckout (outputDir ["repo"]) =
      [.mkdirSync ["repo", "winners", "vaultAccounts"]] ∧
    (words (command (getProperty networks "gnosis-mainnet"))).take 5 =
      ["ptv5", "utils", "compileWinners", "-o", outputArg] ∧
    resolveFrom ["home", "user"] outputArg = ["home", "user", "winners", "vaultAccounts"] ∧
    outputDir ["repo"] ≠ resolveFrom ["home", "user"] outputArg := by
  refine ⟨by decide, by decide, by decide, by decide⟩

end RunLocal
